import Mathlib

/-
Shallow embedding of moonlight-qt app/backend/computermanager.cpp.

Modelling conventions:
  - QString is modelled as Lean String.  In Qt a null QString compares equal
    to the empty string and isEmpty is true for both, so the null string is
    identified with "".
  - QByteArray (the MAC address) is modelled as List Nat, with the null /
    unknown byte array identified with [].
  - Q_ASSERT is modelled as a fatal abort: functions that can hit an
    assertion return an Option, where none means the assertion fired.
  - Locks are not modelled (single-threaded shallow embedding); claims about
    field policies, return values and store effects do not depend on them.
-/

/- Enum NvComputer::PairState (declared in computermanager.h, used by the
   source file; values per spec section 3: Unknown, Paired, NotPaired). -/
inductive NvPairState where
  | PS_UNKNOWN
  | PS_PAIRED
  | PS_NOT_PAIRED
deriving DecidableEq

/- Enum NvComputer::ComputerState (declared in computermanager.h; values per
   spec section 3: Unknown, Online, Offline). -/
inductive NvComputerState where
  | CS_UNKNOWN
  | CS_ONLINE
  | CS_OFFLINE
deriving DecidableEq

/- NvApp: one app-list entry {appName, appId, hdrSupported}. -/
structure NvApp where
  name : String
  id : Int
  hdrSupported : Bool
deriving DecidableEq

open NvPairState NvComputerState

/- NvComputer fields, as read and written by computermanager.cpp (the field
   declarations live in computermanager.h; the field set is exactly the one
   used by the source file and listed in spec section 3). -/
structure NvComputer where
  name : String
  uuid : String
  macAddress : List Nat
  serverCodecModeSupport : Int
  localAddress : String
  remoteAddress : String
  manualAddress : String
  activeAddress : String
  pairState : NvPairState
  state : NvComputerState
  currentGameId : Int
  gfeVersion : String
  appVersion : String
  appList : List NvApp
deriving DecidableEq

/- The ASSIGN_IF_CHANGED macro of NvComputer::update:
   if (this->field != that.field) { this->field = that.field; changed = true; }
   Returns the new field value and the new changed flag. -/
def assignIfChanged {α : Type} [DecidableEq α] (cur new : α) (changed : Bool) :
    α × Bool :=
  if cur ≠ new then (new, true) else (cur, changed)

/- The ASSIGN_IF_CHANGED_AND_NONEMPTY macro of NvComputer::update:
   if (!that.field.isEmpty() && this->field != that.field) { assign; changed = true; } -/
def assignIfChangedAndNonempty {α : Type} [DecidableEq α] (isEmp : α → Bool)
    (cur new : α) (changed : Bool) : α × Bool :=
  if isEmp new = false ∧ cur ≠ new then (new, true) else (cur, changed)

/- NvComputer::update(NvComputer& that) (computermanager.cpp lines 207-245).
   The Q_ASSERT(this->uuid == that.uuid) is modelled by returning none on a
   uuid mismatch.  On success returns the merged record and the changed flag,
   applying the two macros to the fields in source order. -/
def update (self that : NvComputer) : Option (NvComputer × Bool) :=
  if self.uuid = that.uuid then
    let p1 := assignIfChanged self.name that.name false
    let p2 := assignIfChangedAndNonempty List.isEmpty self.macAddress that.macAddress p1.2
    let p3 := assignIfChangedAndNonempty String.isEmpty self.localAddress that.localAddress p2.2
    let p4 := assignIfChangedAndNonempty String.isEmpty self.remoteAddress that.remoteAddress p3.2
    let p5 := assignIfChangedAndNonempty String.isEmpty self.manualAddress that.manualAddress p4.2
    let p6 := assignIfChanged self.pairState that.pairState p5.2
    let p7 := assignIfChanged self.serverCodecModeSupport that.serverCodecModeSupport p6.2
    let p8 := assignIfChanged self.currentGameId that.currentGameId p7.2
    let p9 := assignIfChanged self.activeAddress that.activeAddress p8.2
    let p10 := assignIfChanged self.state that.state p9.2
    let p11 := assignIfChanged self.gfeVersion that.gfeVersion p10.2
    let p12 := assignIfChanged self.appVersion that.appVersion p11.2
    let p13 := assignIfChangedAndNonempty List.isEmpty self.appList that.appList p12.2
    some ({ self with
            name := p1.1, macAddress := p2.1, localAddress := p3.1,
            remoteAddress := p4.1, manualAddress := p5.1, pairState := p6.1,
            serverCodecModeSupport := p7.1, currentGameId := p8.1,
            activeAddress := p9.1, state := p10.1, gfeVersion := p11.1,
            appVersion := p12.1, appList := p13.1 }, p13.2)
  else none

theorem assignIfChanged_fst {α : Type} [DecidableEq α] (cur new : α) (c : Bool) :
    (assignIfChanged cur new c).1 = new := by
  unfold assignIfChanged
  split
  · rfl
  · next h => simpa using (not_not.mp h)

theorem assignIfChanged_snd {α : Type} [DecidableEq α] (cur new : α) (c : Bool) :
    (assignIfChanged cur new c).2 = (c || decide (cur ≠ new)) := by
  unfold assignIfChanged
  split
  · next h => simp [h]
  · next h => simp [h]

theorem assignIfChangedAndNonempty_fst {α : Type} [DecidableEq α]
    (isEmp : α → Bool) (cur new : α) (c : Bool) :
    (assignIfChangedAndNonempty isEmp cur new c).1 =
      (if isEmp new then cur else new) := by
  unfold assignIfChangedAndNonempty
  split
  · next h => simp [h.1]
  · next h =>
    rcases Decidable.em (isEmp new = true) with he | he
    · simp [he]
    · have : ¬ cur ≠ new := fun hne => h ⟨by simpa using he, hne⟩
      simp [he, not_not.mp this]

theorem assignIfChangedAndNonempty_snd {α : Type} [DecidableEq α]
    (isEmp : α → Bool) (cur new : α) (c : Bool) :
    (assignIfChangedAndNonempty isEmp cur new c).2 =
      (c || (!(isEmp new) && decide (cur ≠ new))) := by
  unfold assignIfChangedAndNonempty
  split
  · next h => simp [h.1, h.2]
  · next h =>
    rcases Decidable.em (isEmp new = true) with he | he
    · simp [he]
    · have : ¬ cur ≠ new := fun hne => h ⟨by simpa using he, hne⟩
      simp [he, not_not.mp this]

/-- C1: for records with equal id, update overwrites name, pairState,
codecSupportMask, currentGameId, activeAddress, connectionState,
softwareVersion (gfeVersion) and platformVersion (appVersion) with the
observed value unconditionally (so whenever the observed value differs,
even if empty), overwrites macAddress, localAddress, remoteAddress,
manualAddress and appList only when the observed value is non-empty (so a
non-empty different value wins and an empty one never erases), and the
returned flag is true iff at least one of those fields actually changed. -/
theorem update_merge_policy (self that : NvComputer) (h : self.uuid = that.uuid) :
    ∃ ch : Bool,
      update self that = some ({ self with
          name := that.name,
          macAddress := if that.macAddress.isEmpty then self.macAddress else that.macAddress,
          localAddress := if that.localAddress.isEmpty then self.localAddress else that.localAddress,
          remoteAddress := if that.remoteAddress.isEmpty then self.remoteAddress else that.remoteAddress,
          manualAddress := if that.manualAddress.isEmpty then self.manualAddress else that.manualAddress,
          pairState := that.pairState,
          serverCodecModeSupport := that.serverCodecModeSupport,
          currentGameId := that.currentGameId,
          activeAddress := that.activeAddress,
          state := that.state,
          gfeVersion := that.gfeVersion,
          appVersion := that.appVersion,
          appList := if that.appList.isEmpty then self.appList else that.appList }, ch)
      ∧ (ch = true ↔
          (self.name ≠ that.name
            ∨ (¬ that.macAddress.isEmpty ∧ self.macAddress ≠ that.macAddress)
            ∨ (¬ that.localAddress.isEmpty ∧ self.localAddress ≠ that.localAddress)
            ∨ (¬ that.remoteAddress.isEmpty ∧ self.remoteAddress ≠ that.remoteAddress)
            ∨ (¬ that.manualAddress.isEmpty ∧ self.manualAddress ≠ that.manualAddress)
            ∨ self.pairState ≠ that.pairState
            ∨ self.serverCodecModeSupport ≠ that.serverCodecModeSupport
            ∨ self.currentGameId ≠ that.currentGameId
            ∨ self.activeAddress ≠ that.activeAddress
            ∨ self.state ≠ that.state
            ∨ self.gfeVersion ≠ that.gfeVersion
            ∨ self.appVersion ≠ that.appVersion
            ∨ (¬ that.appList.isEmpty ∧ self.appList ≠ that.appList))) := by
  refine ⟨false
      || decide (self.name ≠ that.name)
      || (!(that.macAddress.isEmpty) && decide (self.macAddress ≠ that.macAddress))
      || (!(that.localAddress.isEmpty) && decide (self.localAddress ≠ that.localAddress))
      || (!(that.remoteAddress.isEmpty) && decide (self.remoteAddress ≠ that.remoteAddress))
      || (!(that.manualAddress.isEmpty) && decide (self.manualAddress ≠ that.manualAddress))
      || decide (self.pairState ≠ that.pairState)
      || decide (self.serverCodecModeSupport ≠ that.serverCodecModeSupport)
      || decide (self.currentGameId ≠ that.currentGameId)
      || decide (self.activeAddress ≠ that.activeAddress)
      || decide (self.state ≠ that.state)
      || decide (self.gfeVersion ≠ that.gfeVersion)
      || decide (self.appVersion ≠ that.appVersion)
      || (!(that.appList.isEmpty) && decide (self.appList ≠ that.appList)), ?_, ?_⟩
  · simp only [update, if_pos h, assignIfChanged_fst, assignIfChangedAndNonempty_fst,
      assignIfChanged_snd, assignIfChangedAndNonempty_snd, Bool.false_or]
  · simp only [Bool.false_or, Bool.or_eq_true, Bool.and_eq_true, Bool.not_eq_true',
      decide_eq_true_eq, Bool.not_eq_true, or_assoc]

/- Sample records used by concrete witnesses. -/
def hostA : NvComputer :=
  { name := "PC", uuid := "u1", macAddress := [1, 2, 3, 4, 5, 6],
    serverCodecModeSupport := 3, localAddress := "10.0.0.2",
    remoteAddress := "", manualAddress := "", activeAddress := "10.0.0.2",
    pairState := PS_PAIRED, state := CS_ONLINE, currentGameId := 0,
    gfeVersion := "3.1", appVersion := "7.1",
    appList := [⟨"Game A", 1, false⟩] }

/- Observation of hostA with a different non-empty localAddress, an empty
   appList and an empty macAddress. -/
def hostAObs : NvComputer :=
  { hostA with localAddress := "10.0.0.9", macAddress := [], appList := [] }

/- Merge of hostAObs into hostA by the C1 field policy: localAddress is
   overwritten, macAddress and appList are preserved. -/
def hostAMerged : NvComputer := { hostA with localAddress := "10.0.0.9" }

/-- C1 witness: a non-empty different observed localAddress is overwritten,
empty observed macAddress and appList do not erase, and changed is true. -/
theorem update_merge_policy_witness :
    hostA.uuid = hostAObs.uuid ∧ update hostA hostAObs = some (hostAMerged, true) := by
  refine ⟨rfl, ?_⟩
  obtain ⟨ch, hEq, hIff⟩ := update_merge_policy hostA hostAObs rfl
  have hch : ch = true := hIff.mpr (by right; right; left; exact ⟨by decide, by decide⟩)
  rw [hch] at hEq
  exact hEq

/-- C8: merging a record with a field-for-field copy of itself returns
changed = false and leaves every field unchanged. -/
theorem update_self_idempotent (h : NvComputer) : update h h = some (h, false) := by
  simp [update, assignIfChanged, assignIfChangedAndNonempty]

/-- C4: update on two records whose uuids differ aborts (the
Q_ASSERT(this->uuid == that.uuid) fires, modelled as none); it never
proceeds to merge the fields. -/
theorem update_uuid_mismatch_fatal (self that : NvComputer)
    (h : self.uuid ≠ that.uuid) : update self that = none := by
  simp [update, h]

/-- C4 witness: merging hostA with a record of a different uuid aborts. -/
theorem update_uuid_mismatch_fatal_witness :
    hostA.uuid ≠ ({ hostA with uuid := "u2" } : NvComputer).uuid ∧
    update hostA { hostA with uuid := "u2" } = none := by
  have h : hostA.uuid ≠ ({ hostA with uuid := "u2" } : NvComputer).uuid := by decide
  exact ⟨h, update_uuid_mismatch_fatal hostA { hostA with uuid := "u2" } h⟩

/- The duplicate / empty pruning loops of NvComputer::uniqueAddresses
   (computermanager.cpp lines 186-199): walking the list, an empty entry is
   removed in place; a non-empty entry is kept and every later occurrence of
   the same value is removed before moving on. -/
def pruneAddresses : List String → List String
  | [] => []
  | x :: rest =>
    if x.isEmpty then pruneAddresses rest
    else x :: pruneAddresses (rest.filter (fun y => y != x))
termination_by l => l.length
decreasing_by
  · simp only [List.length_cons]
    omega
  · simp only [List.length_cons]
    exact Nat.lt_succ_of_le (List.length_filter_le _ _)

/- NvComputer::uniqueAddresses (computermanager.cpp lines 175-205): the four
   address fields in precedence order, pruned; the final
   Q_ASSERT(uniqueAddressList.count() != 0) is modelled by returning none
   when the pruned list is empty. -/
def uniqueAddresses (c : NvComputer) : Option (List String) :=
  let l := pruneAddresses
    [c.activeAddress, c.localAddress, c.remoteAddress, c.manualAddress]
  if l.length = 0 then none else some l

/- Stated from the claim text of C5: remove every later duplicate of an
   earlier value, keeping the earliest occurrence (to be compared with the
   pruning loop of the source). -/
def specRemoveLaterDuplicates : List String → List String
  | [] => []
  | x :: rest => x :: specRemoveLaterDuplicates (rest.filter (fun y => y != x))
termination_by l => l.length
decreasing_by
  simp only [List.length_cons]
  exact Nat.lt_succ_of_le (List.length_filter_le _ _)

theorem pruneAddresses_eq_spec (l : List String) :
    pruneAddresses l =
      specRemoveLaterDuplicates (l.filter (fun s => !s.isEmpty)) := by
  induction l using pruneAddresses.induct with
  | case1 => simp [pruneAddresses, specRemoveLaterDuplicates]
  | case2 x rest hx ih =>
    rw [pruneAddresses, if_pos hx, List.filter_cons_of_neg (by simp [hx]), ih]
  | case3 x rest hx ih =>
    rw [pruneAddresses, if_neg hx, List.filter_cons_of_pos (by simpa using hx)]
    rw [specRemoveLaterDuplicates, ih, List.filter_comm]

theorem pruneAddresses_eq_nil_iff (l : List String) :
    pruneAddresses l = [] ↔ ∀ x ∈ l, x.isEmpty := by
  induction l using pruneAddresses.induct with
  | case1 => simp [pruneAddresses]
  | case2 x rest hx ih =>
    rw [pruneAddresses, if_pos hx]
    simp only [List.mem_cons]
    constructor
    · intro h y hy
      rcases hy with rfl | hy
      · exact hx
      · exact (ih.mp h) y hy
    · intro h
      exact ih.mpr (fun y hy => h y (Or.inr hy))
  | case3 x rest hx ih =>
    rw [pruneAddresses, if_neg hx]
    simp only [List.cons_ne_nil, false_iff, not_forall]
    exact ⟨x, by simp, by simpa using hx⟩

/-- C5: uniqueAddresses returns the list [activeAddress, localAddress,
remoteAddress, manualAddress] with empty entries removed and every later
duplicate of an earlier (higher-precedence) value removed; whenever at
least one of the four fields is non-empty the result is defined and
non-empty, and when all four are empty the final assertion fires (modelled
as none) instead of returning an empty list. -/
theorem uniqueAddresses_spec (c : NvComputer) :
    (∀ out, uniqueAddresses c = some out →
      out = specRemoveLaterDuplicates
        (([c.activeAddress, c.localAddress, c.remoteAddress,
           c.manualAddress]).filter (fun s => !s.isEmpty)) ∧ out ≠ [])
    ∧ ((¬ c.activeAddress.isEmpty ∨ ¬ c.localAddress.isEmpty
        ∨ ¬ c.remoteAddress.isEmpty ∨ ¬ c.manualAddress.isEmpty) →
        ∃ out, uniqueAddresses c = some out)
    ∧ ((c.activeAddress.isEmpty ∧ c.localAddress.isEmpty
        ∧ c.remoteAddress.isEmpty ∧ c.manualAddress.isEmpty) →
        uniqueAddresses c = none) := by
  refine ⟨?_, ?_, ?_⟩
  · intro out hout
    simp only [uniqueAddresses] at hout
    split at hout
    · exact absurd hout (by simp)
    · next hne =>
      obtain rfl : pruneAddresses [c.activeAddress, c.localAddress,
          c.remoteAddress, c.manualAddress] = out := by
        simpa using hout
      exact ⟨pruneAddresses_eq_spec _, by
        intro hnil
        exact hne (by simp [hnil])⟩
  · intro hsome
    simp only [uniqueAddresses]
    split
    · next hz =>
      have hall := (pruneAddresses_eq_nil_iff _).mp (List.length_eq_zero.mp hz)
      rcases hsome with hne | hne | hne | hne
      · exact absurd (hall c.activeAddress (by simp)) hne
      · exact absurd (hall c.localAddress (by simp)) hne
      · exact absurd (hall c.remoteAddress (by simp)) hne
      · exact absurd (hall c.manualAddress (by simp)) hne
    · exact ⟨_, rfl⟩
  · intro hall
    simp only [uniqueAddresses]
    have hnil : pruneAddresses [c.activeAddress, c.localAddress,
        c.remoteAddress, c.manualAddress] = [] := by
      refine (pruneAddresses_eq_nil_iff _).mpr ?_
      intro x hx
      simp only [List.mem_cons, List.not_mem_nil, or_false] at hx
      rcases hx with rfl | rfl | rfl | rfl
      · exact hall.1
      · exact hall.2.1
      · exact hall.2.2.1
      · exact hall.2.2.2
    simp [hnil]

/- A record whose four address fields are all empty, for the C5 witness. -/
def hostNoAddr : NvComputer :=
  { hostA with
    activeAddress := ""
    localAddress := ""
    remoteAddress := ""
    manualAddress := "" }

/-- C5 witness: on hostA (non-empty activeAddress) the result is defined,
non-empty and equals the pruned precedence list; on a record with four
empty addresses the assertion fires. -/
theorem uniqueAddresses_spec_witness :
    (∃ out, uniqueAddresses hostA = some out)
    ∧ uniqueAddresses hostA = some ["10.0.0.2"]
    ∧ uniqueAddresses hostNoAddr = none := by
  refine ⟨?_, ?_, ?_⟩
  case refine_2 =>
    simp [uniqueAddresses, pruneAddresses, hostA]
    decide
  · exact (uniqueAddresses_spec hostA).2.1 (Or.inl (by decide))
  · exact (uniqueAddresses_spec hostNoAddr).2.2 ⟨rfl, rfl, rfl, rfl⟩

/- The WoL port list of NvComputer::wake (computermanager.cpp lines 129-132). -/
def WOL_PORTS : List Nat := [7, 9, 47998, 47999, 48000]

/- The WoL payload built by NvComputer::wake (lines 135-139): 6 bytes of
   0xFF followed by 16 repetitions of the MAC address byte array. -/
def wolPayload (mac : List Nat) : List Nat :=
  List.replicate 6 0xFF ++ (List.replicate 16 mac).flatten

/- Network environment for NvComputer::wake: resolve models
   QHostInfo::fromName(s).addresses(), bindOk models QUdpSocket::bind for
   the socket created for one resolved address, and sendResult models
   QUdpSocket::writeDatagram to (address, port), returning the number of
   bytes sent or -1 on failure (resolved addresses are kept as strings). -/
structure WakeEnv where
  resolve : String → List String
  bindOk : String → Bool
  sendResult : String → Nat → Int

/- NvComputer::wake (computermanager.cpp lines 117-173).  Returns the
   success flag and, to make the performed network sends observable, the
   list of (address, port) pairs to which writeDatagram was invoked.
   Q_ASSERT(wolPayload.count() == 102) and the assertion inside
   uniqueAddresses are modelled as none.  The source tests the raw
   writeDatagram return value for truth (if (sock.writeDatagram(...))), so
   an attempt counts toward success exactly when sendResult is nonzero. -/
def wake (env : WakeEnv) (c : NvComputer) : Option (Bool × List (String × Nat)) :=
  if c.state = CS_ONLINE then some (true, [])
  else if c.macAddress = [] then some (false, [])
  else
    let payload := wolPayload c.macAddress
    if payload.length ≠ 102 then none
    else
      match uniqueAddresses c with
      | none => none
      | some addrs =>
        let addressList := addrs ++ ["255.255.255.255"]
        let attempts := addressList.flatMap (fun s =>
          (env.resolve s).flatMap (fun a =>
            if env.bindOk a then WOL_PORTS.map (fun p => (a, p)) else []))
        some (attempts.any (fun ap => env.sendResult ap.1 ap.2 != 0), attempts)

/-- C9: wake on a record that is not online and has no known MAC address
(null byte array, modelled as []) returns false without performing any
network transmission (the list of attempted sends is empty). -/
theorem wake_no_mac (env : WakeEnv) (c : NvComputer)
    (h1 : c.state ≠ CS_ONLINE) (h2 : c.macAddress = []) :
    wake env c = some (false, []) := by
  simp [wake, h1, h2]

/- An offline copy of hostA, and one with no MAC, for the wake witnesses. -/
def hostOff : NvComputer := { hostA with state := CS_OFFLINE }

def hostOffNoMac : NvComputer := { hostA with state := CS_OFFLINE, macAddress := [] }

/- An environment in which every datagram send fails: writeDatagram always
   returns -1, binding always succeeds, and only 10.0.0.2 resolves. -/
def envAllSendsFail : WakeEnv :=
  { resolve := fun s => if s = "10.0.0.2" then ["10.0.0.2"] else []
    bindOk := fun _ => true
    sendResult := fun _ _ => -1 }

/-- C9 witness: an offline record with no MAC address returns false with no
sends attempted. -/
theorem wake_no_mac_witness :
    hostOffNoMac.state ≠ CS_ONLINE ∧ hostOffNoMac.macAddress = [] ∧
    wake envAllSendsFail hostOffNoMac = some (false, []) :=
  ⟨by decide, rfl, wake_no_mac envAllSendsFail hostOffNoMac (by decide) rfl⟩

theorem list_length_six {α : Type} (l : List α) (h : l.length = 6) :
    ∃ a b c d e f, l = [a, b, c, d, e, f] := by
  rcases l with _ | ⟨a, l⟩
  · simp at h
  rcases l with _ | ⟨b, l⟩
  · simp at h
  rcases l with _ | ⟨c, l⟩
  · simp at h
  rcases l with _ | ⟨d, l⟩
  · simp at h
  rcases l with _ | ⟨e, l⟩
  · simp at h
  rcases l with _ | ⟨f, l⟩
  · simp at h
  rcases l with _ | ⟨g, l⟩
  · exact ⟨a, b, c, d, e, f, rfl⟩
  · simp at h

/-- C7: for a record that is not online and whose MAC address is a known
6-byte address, the wake payload is exactly 102 bytes: 6 bytes of 0xFF
followed by 16 consecutive repetitions of the 6-byte MAC address. -/
theorem wolPayload_structure (c : NvComputer)
    (_h1 : c.state ≠ CS_ONLINE) (h2 : c.macAddress.length = 6) :
    (wolPayload c.macAddress).length = 102
    ∧ (wolPayload c.macAddress).take 6 = List.replicate 6 0xFF
    ∧ ∀ i, i < 16 →
        ((wolPayload c.macAddress).drop (6 + 6 * i)).take 6 = c.macAddress := by
  obtain ⟨a, b, c', d, e, f, hmac⟩ := list_length_six _ h2
  rw [hmac]
  refine ⟨rfl, rfl, ?_⟩
  intro i hi
  interval_cases i <;> rfl

/-- C7 witness: the payload for MAC AA:BB:CC:DD:EE:FF on the offline hostOff
derivative with that MAC. -/
theorem wolPayload_structure_witness :
    ({ hostOff with macAddress := [0xAA, 0xBB, 0xCC, 0xDD, 0xEE, 0xFF] } :
        NvComputer).state ≠ CS_ONLINE
    ∧ ({ hostOff with macAddress := [0xAA, 0xBB, 0xCC, 0xDD, 0xEE, 0xFF] } :
        NvComputer).macAddress.length = 6
    ∧ (wolPayload ({ hostOff with
        macAddress := [0xAA, 0xBB, 0xCC, 0xDD, 0xEE, 0xFF] } :
        NvComputer).macAddress).length = 102 := by
  refine ⟨by decide, rfl, ?_⟩
  exact (wolPayload_structure
    { hostOff with macAddress := [0xAA, 0xBB, 0xCC, 0xDD, 0xEE, 0xFF] }
    (by decide) rfl).1

/-- C2 (code divergence): in an environment where every datagram send fails
(writeDatagram returns -1 throughout), wake on an offline record with a
known MAC still returns true, because the source tests the writeDatagram
return value with if (sock.writeDatagram(...)), which is true for the
error value -1.  The claim says wake must return false when every
attempted transmission fails. -/
theorem wake_counts_failed_send_as_success :
    (∀ a p, envAllSendsFail.sendResult a p = -1)
    ∧ hostOff.state ≠ CS_ONLINE
    ∧ hostOff.macAddress ≠ []
    ∧ wake envAllSendsFail hostOff =
        some (true, [("10.0.0.2", 7), ("10.0.0.2", 9), ("10.0.0.2", 47998),
                     ("10.0.0.2", 47999), ("10.0.0.2", 48000)]) := by
  refine ⟨fun a p => rfl, by decide, by decide, ?_⟩
  simp only [wake, uniqueAddresses, hostOff, hostA, envAllSendsFail]
  simp [pruneAddresses, wolPayload, WOL_PORTS]
  decide

/- One host entry of the persistent store (QSettings keys SER_NAME,
   SER_UUID, SER_MAC, SER_CODECSUPP, SER_LOCALADDR, SER_REMOTEADDR,
   SER_MANUALADDR, SER_APPLIST of one slot of the SER_HOSTS array). -/
structure StoredHost where
  hostname : String
  uuid : String
  mac : List Nat
  codecsupport : Int
  localaddress : String
  remoteaddress : String
  manualaddress : String
  apps : List NvApp
deriving DecidableEq

/- A store slot none of whose keys are present: QSettings returns default
   values (empty string, empty byte array, 0, empty array) for absent keys. -/
def emptyStoredHost : StoredHost :=
  { hostname := "", uuid := "", mac := [], codecsupport := 0,
    localaddress := "", remoteaddress := "", manualaddress := "", apps := [] }

/- NvComputer::serialize (computermanager.cpp lines 54-80) acting on one
   store slot: the scalar keys are always overwritten; the apps array is
   replaced wholesale only when the in-memory appList is non-empty
   (the source guard if (!appList.isEmpty()) with the comment
   "Avoid deleting an existing applist if we could not get one"),
   otherwise the slot keeps whatever apps it already held. -/
def serialize (prev : StoredHost) (c : NvComputer) : StoredHost :=
  { hostname := c.name, uuid := c.uuid, mac := c.macAddress,
    codecsupport := c.serverCodecModeSupport, localaddress := c.localAddress,
    remoteaddress := c.remoteAddress, manualaddress := c.manualAddress,
    apps := if c.appList.isEmpty then prev.apps else c.appList }

/- ComputerManager::saveHosts (computermanager.cpp lines 264-276): it first
   executes settings.remove(SER_HOSTS), which deletes the whole hosts tree
   of the store including every slot and its apps subarray, and then
   serializes each known host into a fresh (empty) slot; the previous store
   content is therefore discarded before any slot is written. -/
def saveHosts (_prevStore : List StoredHost) (hosts : List NvComputer) :
    List StoredHost :=
  hosts.map (fun c => serialize emptyStoredHost c)

/- hostA with its in-memory app list empty, and the store entry produced by
   previously persisting hostA (a non-empty apps array). -/
def hostAEmptyApps : NvComputer := { hostA with appList := [] }

def storedHostA : StoredHost := serialize emptyStoredHost hostA

/-- C3 (code divergence at a concrete input): the previously persisted
entry for hostA holds a non-empty apps array and the in-memory appList is
empty; serialize alone run against that slot would keep the old apps, but
the whole-table save removes the entire hosts tree first and then
serializes into an empty slot, so the store ends with an empty apps array
for this host — the previously persisted non-empty app list is not left
intact, contrary to the claim. -/
theorem saveHosts_erases_applist :
    storedHostA.apps = [⟨"Game A", 1, false⟩]
    ∧ hostAEmptyApps.appList = []
    ∧ (serialize storedHostA hostAEmptyApps).apps = storedHostA.apps
    ∧ saveHosts [storedHostA] [hostAEmptyApps] =
        [{ storedHostA with apps := [] }] := by
  refine ⟨rfl, rfl, rfl, rfl⟩

/- ComputerManager state: the global polling flag m_Polling, the host table
   m_KnownHosts (QMap uuid -> NvComputer, modelled as a list keyed by the
   uuid field), the worker registry m_PollThreads (modelled by the set of
   uuids that have a registered polling thread), whether an mDNS browser
   object currently exists (m_MdnsBrowser != nullptr), and the number of
   pending mDNS resolutions (m_PendingResolution). -/
structure CMState where
  m_Polling : Bool
  m_KnownHosts : List NvComputer
  m_PollThreads : List String
  m_MdnsBrowser : Bool
  m_PendingResolution : Nat
deriving DecidableEq

/- QMap lookup by uuid. -/
def findHost (hosts : List NvComputer) (uuid : String) : Option NvComputer :=
  hosts.find? (fun x => x.uuid == uuid)

/- QMap insert-or-replace keyed by uuid. -/
def setHost (hosts : List NvComputer) (c : NvComputer) : List NvComputer :=
  if hosts.any (fun x => x.uuid == c.uuid) then
    hosts.map (fun x => if x.uuid == c.uuid then c else x)
  else hosts ++ [c]

/- ComputerManager::startPollingComputer (computermanager.cpp lines
   452-469): no-op when polling is disabled or a thread is already
   registered for this uuid (the Q_ASSERT there is about the live thread
   object and is not observable in this state model); otherwise a new
   polling thread is registered for the uuid. -/
def startPollingComputer (st : CMState) (c : NvComputer) : CMState :=
  if st.m_Polling = false then st
  else if st.m_PollThreads.contains c.uuid then st
  else { st with m_PollThreads := st.m_PollThreads ++ [c.uuid] }

/- ComputerManager::startPolling (computermanager.cpp lines 278-306):
   returns at once when m_Polling is already set; otherwise sets the flag,
   creates the mDNS browser and starts one polling thread per known host. -/
def startPolling (st : CMState) : CMState :=
  if st.m_Polling then st
  else
    let st1 := { st with m_Polling := true, m_MdnsBrowser := true }
    st1.m_KnownHosts.foldl startPollingComputer st1

/- The outcome of the status query issued by ComputerManager::addNewHost:
   some c is the NvComputer constructed from a successful
   NvHTTP::getServerInfo response (NvHTTP is an external collaborator),
   none means the query threw. -/
structure AddHostEnv where
  queryResult : Option NvComputer

/- ComputerManager::addNewHost (computermanager.cpp lines 388-440).
   Returns none if the Q_ASSERT inside NvComputer::update fires, otherwise
   the returned bool, the new manager state, and the list of uuids for
   which handleComputerStateChanged (notification plus saveHosts
   persistence) is invoked. -/
def addNewHost (env : AddHostEnv) (st : CMState) (address : String)
    (mdns : Bool) : Option (Bool × CMState × List String) :=
  match env.queryResult with
  | none => some (false, st, [])
  | some parsed =>
    let newComputer := if mdns then { parsed with localAddress := address }
                       else { parsed with manualAddress := address }
    match findHost st.m_KnownHosts newComputer.uuid with
    | some existingComputer =>
      match update existingComputer newComputer with
      | none => none
      | some (merged, changed) =>
        some (true, { st with m_KnownHosts := setHost st.m_KnownHosts merged },
          if changed then [merged.uuid] else [])
    | none =>
      let st1 := { st with m_KnownHosts := setHost st.m_KnownHosts newComputer }
      let st2 := startPollingComputer st1 newComputer
      some (true, st2, [newComputer.uuid])

theorem update_isSome (self that : NvComputer) (h : self.uuid = that.uuid) :
    ∃ p, update self that = some p := by
  unfold update
  rw [if_pos h]
  exact ⟨_, rfl⟩

/-- C6: if the status query issued by addNewHost fails, addNewHost returns
false with the host table and manager state unchanged and no notification
or persistence; if the query succeeds, addNewHost returns true. -/
theorem addNewHost_query_outcome (env : AddHostEnv) (st : CMState)
    (address : String) (mdns : Bool) :
    (env.queryResult = none →
      addNewHost env st address mdns = some (false, st, []))
    ∧ (∀ parsed, env.queryResult = some parsed →
      ∃ st2 ns, addNewHost env st address mdns = some (true, st2, ns)) := by
  constructor
  · intro h
    simp [addNewHost, h]
  · intro parsed h
    simp only [addNewHost, h]
    split
    · next existingComputer heq =>
      unfold findHost at heq
      have hp := List.find?_some heq
      obtain ⟨⟨merged, changed⟩, hu⟩ :=
        update_isSome existingComputer _ (eq_of_beq hp)
      rw [hu]
      exact ⟨_, _, rfl⟩
    · next heq =>
      exact ⟨_, _, rfl⟩

/- Sample environments and manager state for the C6 witness. -/
def envQueryFails : AddHostEnv := { queryResult := none }

def envQueryHostA : AddHostEnv := { queryResult := some hostA }

def stIdle : CMState :=
  { m_Polling := false, m_KnownHosts := [], m_PollThreads := [],
    m_MdnsBrowser := false, m_PendingResolution := 0 }

/-- C6 witness: a failed query returns false and leaves the empty manager
state untouched with no notification; a successful query returns true. -/
theorem addNewHost_query_outcome_witness :
    (envQueryFails.queryResult = none
      ∧ addNewHost envQueryFails stIdle "192.0.2.10" false = some (false, stIdle, []))
    ∧ (envQueryHostA.queryResult = some hostA
      ∧ ∃ st2 ns, addNewHost envQueryHostA stIdle "192.0.2.10" false = some (true, st2, ns)) :=
  ⟨⟨rfl, (addNewHost_query_outcome envQueryFails stIdle "192.0.2.10" false).1 rfl⟩,
   ⟨rfl, (addNewHost_query_outcome envQueryHostA stIdle "192.0.2.10" false).2 hostA rfl⟩⟩

/-- C10: calling startPolling when polling is already enabled returns
immediately and changes nothing: no second mDNS browser is created, no
polling threads are added, and the manager state is exactly as before. -/
theorem startPolling_noop_when_polling (st : CMState)
    (h : st.m_Polling = true) : startPolling st = st := by
  simp [startPolling, h]

/- A manager state that is already polling, for the C10 witness. -/
def stPolling : CMState :=
  { m_Polling := true, m_KnownHosts := [hostA], m_PollThreads := ["u1"],
    m_MdnsBrowser := true, m_PendingResolution := 0 }

/-- C10 witness: startPolling on an already-polling state is the identity. -/
theorem startPolling_noop_when_polling_witness :
    stPolling.m_Polling = true ∧ startPolling stPolling = stPolling :=
  ⟨rfl, startPolling_noop_when_polling stPolling rfl⟩
